import Mathlib

/-!
Shallow embedding of the open-letter-ns-verify repository (TypeScript/Next.js)
and proofs about its specification claims.

The embedding covers:
* the outbound rate limiter of lib/nsRateLimiter.ts (wait-time computation and
  the 429 back-off handler);
* the token generators of lib/client/ns-token-generator.ts (generateNSToken)
  and lib/nsApi.ts (generateNSTokenServer);
* verifyNation of lib/nsApi.ts, as a function of the settled outcome of the
  throttled fetch;
* the daily dump ingestion pipeline processDailyNationDump of lib/nsApi.ts,
  with its download / decompress / parse / batch-upsert / cleanup stages made
  explicit as a function of an environment recording each effect outcome;
* the sign API route handler of pages/api/sign.ts over a list model of the
  signatures table.

JavaScript numbers on these code paths are integers (millisecond timestamps
and durations), embedded as Int.  Fallible code is embedded with Except.
-/

/-- State of the module-global rate limiter in lib/nsRateLimiter.ts:
lastRequestTime, nextAvailableTime and retryAfterMs (all in milliseconds). -/
structure ThrottleState where
  lastRequestTime : Int
  nextAvailableTime : Int
  retryAfterMs : Int
  deriving Repr, DecidableEq

/-- The constant DEFAULT_MIN_DELAY_MS = 700 of lib/nsRateLimiter.ts. -/
def DEFAULT_MIN_DELAY_MS : Int := 700

/-- Embeds the line
`const requiredDelay = retryAfterMs > 0 ? retryAfterMs : DEFAULT_MIN_DELAY_MS`
of lib/nsRateLimiter.ts. -/
def requiredDelay (s : ThrottleState) : Int :=
  if s.retryAfterMs > 0 then s.retryAfterMs else DEFAULT_MIN_DELAY_MS

/-- Embeds the line
`const timeToWait = Math.max(0, nextAvailableTime - now, requiredDelay - (now - lastRequestTime))`
of lib/nsRateLimiter.ts; this value is the delay passed to setTimeout before
the queued call is issued. -/
def timeToWait (s : ThrottleState) (now : Int) : Int :=
  max 0 (max (s.nextAvailableTime - now) (requiredDelay s - (now - s.lastRequestTime)))

/-- Embeds JavaScript parseInt(str, 10): skip leading whitespace, an optional
sign, then read a maximal run of decimal digits; the result is none (NaN) when
no digit follows. -/
def jsParseInt (s : String) : Option Int :=
  let cs := s.toList.dropWhile Char.isWhitespace
  let signAndRest : Int × List Char :=
    match cs with
    | '-' :: t => (-1, t)
    | '+' :: t => (1, t)
    | t => (1, t)
  let ds := signAndRest.2.takeWhile Char.isDigit
  if ds.isEmpty then none
  else some (signAndRest.1 * ds.foldl (fun acc c => acc * 10 + ((c.toNat : Int) - 48)) 0)

/-- What the catch-branch of the throttler does with the failed call: either
re-enqueue it (enqueue()) or reject the promise given to the caller. -/
inductive FailAction where
  | requeue
  | rejectErr
  deriving Repr, DecidableEq

/-- The data the catch-branch of lib/nsRateLimiter.ts reads off a failed call:
`error?.response?.status` and `error?.response?.headers?.get(...)`, the latter
none when the header is absent. -/
structure ErrInfo where
  status : Option Int
  retryHeader : Option String
  deriving Repr, DecidableEq

/-- Embeds the catch-branch of the queued-call handler in lib/nsRateLimiter.ts:
if `responseStatus === 429 && retryHeader` (header present and truthy, i.e.
non-empty), parse the header as seconds, multiply by 1000, fall back to
`DEFAULT_MIN_DELAY_MS * 5` unless the product is positive, store it in
retryAfterMs and re-enqueue; otherwise reject the error. -/
def handle429 (s : ThrottleState) (e : ErrInfo) : ThrottleState × FailAction :=
  match e.retryHeader with
  | some hdr =>
    if e.status = some 429 ∧ hdr ≠ "" then
      let newRetry : Int :=
        match jsParseInt hdr with
        | some v => if v * 1000 > 0 then v * 1000 else DEFAULT_MIN_DELAY_MS * 5
        | none => DEFAULT_MIN_DELAY_MS * 5
      ({ s with retryAfterMs := newRetry }, FailAction.requeue)
    else (s, FailAction.rejectErr)
  | none => (s, FailAction.rejectErr)

/-- Embeds generateNSToken of lib/client/ns-token-generator.ts (lib/utils.ts):
if the NEXT_PUBLIC_NS_VERIFY_TOKEN_SECRET environment value is absent or empty
(falsy), throw; otherwise HMAC-SHA-256 the lower-cased nation name under the
secret.  The library call
`crypto.createHmac("sha256", key).update(msg).digest("hex")` is abstracted as
the function argument hmacSha256Hex, applied to the key and the message. -/
def generateNSToken (hmacSha256Hex : String → String → String)
    (secret : Option String) (nationName : String) : Except String String :=
  match secret with
  | none => Except.error "Missing client-side token secret."
  | some key =>
    if key = "" then Except.error "Missing client-side token secret."
    else Except.ok (hmacSha256Hex key nationName.toLower)

/-- Embeds generateNSTokenServer of lib/nsApi.ts: same falsy check on the same
environment value (with a different error message), then the same
HMAC-SHA-256 of the lower-cased nation name under the secret. -/
def generateNSTokenServer (hmacSha256Hex : String → String → String)
    (secret : Option String) (nationName : String) : Except String String :=
  match secret with
  | none =>
    Except.error "NEXT_PUBLIC_NS_VERIFY_TOKEN_SECRET is not set for server-side token generation."
  | some key =>
    if key = "" then
      Except.error "NEXT_PUBLIC_NS_VERIFY_TOKEN_SECRET is not set for server-side token generation."
    else Except.ok (hmacSha256Hex key nationName.toLower)

/-- The settled outcome of the throttled fetch inside verifyNation: either the
response body text (fetchCall resolved), or the FetchError thrown on a non-ok
HTTP status, or any other (network) failure. -/
inductive FetchOutcome where
  | ok (body : String)
  | httpError (status : Nat)
  | networkError (msg : String)
  deriving Repr, DecidableEq

/-- The base URL constant of lib/nsApi.ts. -/
def NS_API_BASE_URL : String := "https://www.nationstates.net/cgi-bin/api.cgi"

/-- The query URL built by verifyNation: a=verify, nation with spaces replaced
by underscores, the user-supplied checksum and the site-specific token. -/
def buildVerifyUrl (nationName checksum token : String) : String :=
  NS_API_BASE_URL ++ "?a=verify&nation=" ++ nationName.replace " " "_" ++
    "&checksum=" ++ checksum ++ "&token=" ++ token

/-- Embeds verifyNation of lib/nsApi.ts (the rate-limited variant): generate
the server-side token (this throw propagates, it is outside the try block),
build the request URL, then map the settled outcome of the throttled fetch:
body text trimmed equal to "1" gives true; any other body gives false; the
catch-branch turns every error (FetchError from a non-ok status, or a network
failure) into false. -/
def verifyNation (hmacSha256Hex : String → String → String) (secret : Option String)
    (nationName checksum : String) (outcome : FetchOutcome) : Except String Bool :=
  match generateNSTokenServer hmacSha256Hex secret nationName with
  | Except.error e => Except.error e
  | Except.ok token =>
    let _url := buildVerifyUrl nationName checksum token
    match outcome with
    | FetchOutcome.ok body => Except.ok (body.trim = "1")
    | FetchOutcome.httpError _ => Except.ok false
    | FetchOutcome.networkError _ => Except.ok false

/-- A nation record as xml2js (explicitArray false) hands it to the dump loop:
each of the NAME, FLAG and REGION properties may be absent (undefined). -/
structure NationRec where
  NAME : Option String
  FLAG : Option String
  REGION : Option String
  deriving Repr, DecidableEq

/-- Embeds the flag-URL derivation of processDailyNationDump in lib/nsApi.ts:
`flagCode ? "https://www.nationstates.net/images/flags/" + flagCode + ".jpg" : ""`
(an absent or empty flag code is falsy and yields the empty string). -/
def flagUrlOfDump (flagCode : Option String) : String :=
  match flagCode with
  | some c =>
    if c = "" then ""
    else "https://www.nationstates.net/images/flags/" ++ c ++ ".jpg"
  | none => ""

/-- Embeds the identical flag-URL derivation of the live-lookup path
getNationDisplayData (the cache-filling variant of lib/nsApi.ts):
`const fetchedFlagUrl = flagCode ? ... : ""`. -/
def fetchedFlagUrlOfLive (flagCode : Option String) : String :=
  match flagCode with
  | some c =>
    if c = "" then ""
    else "https://www.nationstates.net/images/flags/" ++ c ++ ".jpg"
  | none => ""

/-- Embeds the region fallback `nation.REGION || "Unknown Region"` of
processDailyNationDump (absent or empty region is falsy). -/
def regionOf (region : Option String) : String :=
  match region with
  | some r => if r = "" then "Unknown Region" else r
  | none => "Unknown Region"

/-- Single-quote a string for the hand-built SQL of processDailyNationDump,
doubling embedded quotes as `.replace(/'/g, "''")` does.  (\x27 is the
single-quote character.) -/
def sqlQuote (s : String) : String :=
  "\x27" ++ s.replace "\x27" "\x27\x27" ++ "\x27"

/-- Embeds the per-record body of `batch.map((nation) => ...)` in
processDailyNationDump.  When the record has no NAME property,
`nationName.replace(...)` is a property access on undefined and throws a
TypeError; otherwise the quoted row tuple string is produced. -/
def mkValue (r : NationRec) : Except String String :=
  match r.NAME with
  | none =>
    Except.error "TypeError: Cannot read properties of undefined (reading \x27replace\x27)"
  | some nationName =>
    Except.ok ("(" ++ sqlQuote nationName ++ ", " ++ sqlQuote (flagUrlOfDump r.FLAG) ++
      ", " ++ sqlQuote (regionOf r.REGION) ++ ")")

/-- The row tuple mkValue produces on a record whose NAME is present. -/
def mkValueStr (r : NationRec) : String :=
  match r.NAME with
  | none => ""
  | some nationName =>
    "(" ++ sqlQuote nationName ++ ", " ++ sqlQuote (flagUrlOfDump r.FLAG) ++
      ", " ++ sqlQuote (regionOf r.REGION) ++ ")"

/-- Embeds `batch.map(...)` over mkValue: the callback runs left to right and
the first TypeError aborts the whole map. -/
def mapValues : List NationRec → Except String (List String)
  | [] => Except.ok []
  | r :: rs =>
    match mkValue r with
    | Except.error e => Except.error e
    | Except.ok v =>
      match mapValues rs with
      | Except.error e => Except.error e
      | Except.ok vs => Except.ok (v :: vs)

/-- Embeds Array.prototype.join(",") as the dump loop applies it to the mapped
batch values. -/
def joinComma : List String → String
  | [] => ""
  | [v] => v
  | v :: rest => v ++ "," ++ joinComma rest

/-- The single multi-row upsert statement a batch is flushed with: insert all
rows of the values list, and on a nationName conflict overwrite flagUrl,
region and lastUpdated. -/
def mkSql (values : String) : String :=
  "INSERT INTO nation_cache (\"nationName\", \"flagUrl\", region, \"lastUpdated\") VALUES " ++
    values ++
    " ON CONFLICT (\"nationName\") DO UPDATE SET \"flagUrl\" = EXCLUDED.\"flagUrl\", region = EXCLUDED.region, \"lastUpdated\" = NOW();"

/-- Embeds the batching loop
`for (let i = 0; i < nations.length; i += BATCH_SIZE)` of
processDailyNationDump with BATCH_SIZE = 500: each iteration slices the next
500 records, maps them through mkValue (a TypeError aborts the loop), joins
the values with commas, and, when the joined string is non-empty, pushes one
upsert statement and adds the batch length to nationsProcessed.  Returns the
issued statements in issue order together with the final nationsProcessed. -/
def processBatches : List NationRec → Except String (List String × Nat)
  | [] => Except.ok ([], 0)
  | n :: rest =>
    let batch := (n :: rest).take 500
    match mapValues batch with
    | Except.error e => Except.error e
    | Except.ok vals =>
      let values := joinComma vals
      match processBatches ((n :: rest).drop 500) with
      | Except.error e => Except.error e
      | Except.ok (stmts, count) =>
        if values = "" then Except.ok (stmts, count)
        else Except.ok (mkSql values :: stmts, batch.length + count)
termination_by l => l.length
decreasing_by simp [List.length_drop]; omega

/-- The reference decomposition of the record stream into successive slices of
at most 500, used to state what the batching loop produces. -/
def batchesOf : List NationRec → List (List NationRec)
  | [] => []
  | n :: rest => (n :: rest).take 500 :: batchesOf ((n :: rest).drop 500)
termination_by l => l.length
decreasing_by simp [List.length_drop]; omega

/-- What parseStringPromise returned for the dump: result.NATIONS.NATION is
either an array of nation records or something else (the not-an-array guard
then throws). -/
inductive ParsedNations where
  | arrayOf (nations : List NationRec)
  | notArray
  deriving Repr, DecidableEq

/-- Filesystem side effects the pipeline performs on the transient file. -/
inductive FsAction where
  | unlink (path : String)
  deriving Repr, DecidableEq

/-- The structured result object processDailyNationDump resolves with. -/
structure DumpResult where
  success : Bool
  message : String
  nationsProcessed : Option Nat
  deriving Repr, DecidableEq

/-- Environment of one pipeline run, recording the outcome of each external
effect: the clock value used in the temp file name, whether the download
response was ok with a body, the decompressed chunk sequence (or a stream
error), what parseStringPromise produced for the accumulated XML (or a parse
error), and the outcome of awaiting the batched database writes. -/
structure DumpEnv where
  now : Nat
  downloadOk : Bool
  decompressResult : Except String (List String)
  parseResult : Except String ParsedNations
  dbResult : Except String Unit
  deriving Repr

/-- The transient download path
`path.join(os.tmpdir(), "nations_dump_" + Date.now() + ".xml.gz")`. -/
def tempFilePathOf (now : Nat) : String :=
  "/tmp/nations_dump_" ++ toString now ++ ".xml.gz"

/-- Embeds the accumulation loop
`xmlStream.on("data", (chunk) => xmlData += chunk.toString())` of
processDailyNationDump: the decompressed chunks are concatenated, in order,
into the single in-memory string later handed to parseStringPromise. -/
def accumulateXml (chunks : List String) : String :=
  chunks.foldl (fun acc c => acc ++ c) ""

/-- Observable trace of one processDailyNationDump run: the structured result
it resolves with, the filesystem actions it performed, and the string handed
to parseStringPromise (none when an earlier stage failed first). -/
structure DumpRun where
  result : DumpResult
  fsActions : List FsAction
  parserInput : Option String
  deriving Repr, DecidableEq

/-- Embeds processDailyNationDump of lib/nsApi.ts as a function of the
environment.  The try block: fail on a bad download; accumulate the
decompressed chunks into xmlData; parse it whole; throw unless
result.NATIONS.NATION is an array; run the batching loop; await the batch
upserts; unlink the temp file and resolve with a success result.  The catch
block: unlink the temp file and resolve with a structured failure result
carrying the error message.  Every path resolves (the function is total) and
every path unlinks the temp file. -/
def processDailyNationDump (env : DumpEnv) : DumpRun :=
  let tempFilePath := tempFilePathOf env.now
  let fail : String → Option String → DumpRun := fun e pin =>
    { result :=
        { success := false
          message := "Failed to process daily dump: " ++ e
          nationsProcessed := none }
      fsActions := [FsAction.unlink tempFilePath]
      parserInput := pin }
  if !env.downloadOk then
    fail "Failed to download daily dump" none
  else
    match env.decompressResult with
    | Except.error e => fail e none
    | Except.ok chunks =>
      let xmlData := accumulateXml chunks
      match env.parseResult with
      | Except.error e => fail e (some xmlData)
      | Except.ok ParsedNations.notArray =>
        fail "Unexpected dump format: NATIONS.NATION is not an array." (some xmlData)
      | Except.ok (ParsedNations.arrayOf nations) =>
        match processBatches nations with
        | Except.error e => fail e (some xmlData)
        | Except.ok (_stmts, count) =>
          match env.dbResult with
          | Except.error e => fail e (some xmlData)
          | Except.ok _ =>
            { result :=
                { success := true
                  message :=
                    "Successfully processed " ++ toString count ++ " nations from daily dump."
                  nationsProcessed := some count }
              fsActions := [FsAction.unlink tempFilePath]
              parserInput := some xmlData }

/-- A row of the signatures table as pages/api/sign.ts manipulates it. -/
structure SignatureRow where
  nationName : String
  checksum : String
  signedAt : Nat
  deriving Repr, DecidableEq

/-- Embeds the POST handler of pages/api/sign.ts over a list model of the
signatures table, given the outcome of verifyNation and the NOW() timestamp:
reject when a required field is falsy or verification failed; otherwise
SELECT an existing row by nation name, and either UPDATE checksum and
signedAt on every row with that name or INSERT a fresh row at the end.
Returns the new table and the HTTP status code. -/
def signHandler (rows : List SignatureRow) (nationName checksum : String)
    (now : Nat) (isVerified : Bool) : List SignatureRow × Nat :=
  if nationName = "" ∨ checksum = "" then (rows, 400)
  else if !isVerified then (rows, 400)
  else
    match rows.find? (fun r => r.nationName == nationName) with
    | some _ =>
      (rows.map (fun r =>
        if r.nationName == nationName then
          { r with checksum := checksum, signedAt := now }
        else r), 200)
    | none =>
      (rows ++ [{ nationName := nationName, checksum := checksum, signedAt := now }], 200)

/-! ## Helper lemmas -/

/-- On a record with a NAME, mkValue succeeds with the row tuple mkValueStr. -/
lemma mkValue_ok (r : NationRec) (h : r.NAME.isSome) : mkValue r = Except.ok (mkValueStr r) := by
  cases hr : r.NAME with
  | none => rw [hr] at h; simp at h
  | some n => simp [mkValue, mkValueStr, hr]

/-- When every record of a batch has a NAME, the mapped values are exactly
the row tuples, in order. -/
lemma mapValues_ok (l : List NationRec) (h : ∀ r ∈ l, r.NAME.isSome) :
    mapValues l = Except.ok (l.map mkValueStr) := by
  induction l with
  | nil => rfl
  | cons r rs ih =>
    rw [mapValues, mkValue_ok r (h r (by simp))]
    rw [ih (fun x hx => h x (by simp [hx]))]
    rfl

/-- A row tuple of a named record is a non-empty string. -/
lemma mkValueStr_length (r : NationRec) (h : r.NAME.isSome) : (mkValueStr r).length ≠ 0 := by
  obtain ⟨N, F, R⟩ := r
  obtain ⟨n, hn⟩ := Option.isSome_iff_exists.mp h
  simp only at hn
  subst hn
  show ("(" ++ sqlQuote n ++ ", " ++ sqlQuote (flagUrlOfDump F) ++ ", " ++
    sqlQuote (regionOf R) ++ ")").length ≠ 0
  simp only [String.length_append]
  have h1 : ("(" : String).length = 1 := rfl
  omega

/-- Joining a list whose head is non-empty gives a non-empty string. -/
lemma joinComma_ne_empty (v : String) (vs : List String) (hv : v.length ≠ 0) :
    joinComma (v :: vs) ≠ "" := by
  cases vs with
  | nil =>
    intro he
    rw [joinComma] at he
    subst he
    simp at hv
  | cons w ws =>
    intro he
    have hl := congrArg String.length he
    simp [joinComma, String.length_append] at hl
    omega

/-- The 500-slices of the record stream concatenate back to the stream:
batching neither drops, duplicates nor reorders records. -/
lemma batchesOf_flatten (recs : List NationRec) : (batchesOf recs).flatten = recs := by
  induction recs using batchesOf.induct with
  | case1 => rw [batchesOf]; rfl
  | case2 n rest ih =>
    rw [batchesOf, List.flatten_cons, ih]
    exact List.take_append_drop 500 (n :: rest)

/-- Every slice produced by batchesOf holds at most 500 records. -/
lemma batchesOf_le (recs : List NationRec) : ∀ b ∈ batchesOf recs, b.length ≤ 500 := by
  induction recs using batchesOf.induct with
  | case1 => rw [batchesOf]; intro b hb; simp at hb
  | case2 n rest ih =>
    rw [batchesOf]
    intro b hb
    rcases List.mem_cons.mp hb with hb | hb
    · subst hb; simp [List.length_take]
    · exact ih b hb

/-- On a stream of named records the batching loop succeeds and issues, in
stream order, exactly one upsert statement per 500-slice, counting every
record. -/
lemma processBatches_spec (recs : List NationRec) (h : ∀ r ∈ recs, r.NAME.isSome) :
    processBatches recs =
      Except.ok ((batchesOf recs).map (fun b => mkSql (joinComma (b.map mkValueStr))),
        recs.length) := by
  revert h
  induction recs using batchesOf.induct with
  | case1 => intro _; rw [processBatches, batchesOf]; rfl
  | case2 n rest ih =>
    intro h
    rw [processBatches, batchesOf]
    dsimp only
    rw [mapValues_ok _ (fun r hr => h r (List.mem_of_mem_take hr)),
      ih (fun r hr => h r (List.mem_of_mem_drop hr))]
    dsimp only
    have hne : joinComma (((n :: rest).take 500).map mkValueStr) ≠ "" := by
      cases hb : (n :: rest).take 500 with
      | nil => simp [List.take_eq_nil_iff] at hb
      | cons b bs =>
        rw [List.map_cons]
        refine joinComma_ne_empty _ _ (mkValueStr_length b (h b ?_))
        exact List.mem_of_mem_take (hb ▸ List.mem_cons_self b bs)
    rw [if_neg hne]
    simp only [List.map_cons, List.length_take, List.length_drop, Except.ok.injEq,
      Prod.mk.injEq, List.length_cons]
    refine ⟨trivial, ?_⟩
    omega

/-- Folding append over the chunk list accumulates the length of every chunk:
the buffered string is as large as the whole decompressed document. -/
lemma foldl_append_length (chunks : List String) (acc : String) :
    (chunks.foldl (fun a c => a ++ c) acc).length = acc.length + (chunks.map String.length).sum := by
  induction chunks generalizing acc with
  | nil => simp
  | cons c cs ih =>
    rw [List.foldl_cons, ih, List.map_cons, List.sum_cons, String.length_append]
    omega

/-- A verified sign against a table with no row for the nation appends one
row carrying that sign's checksum and timestamp. -/
lemma sign_insert_filter (rows : List SignatureRow) (name c : String) (t : Nat)
    (hn : name ≠ "") (hc : c ≠ "")
    (hnil : rows.filter (fun r => r.nationName == name) = []) :
    ((signHandler rows name c t true).1).filter (fun r => r.nationName == name) =
      [⟨name, c, t⟩] := by
  have hfind : rows.find? (fun r => r.nationName == name) = none := by
    apply List.find?_eq_none.mpr
    intro x hx
    exact (List.filter_eq_nil_iff.mp hnil) x hx
  simp [signHandler, hn, hc, hfind, List.filter_append, hnil]

/-- A verified sign against a table with exactly one row for the nation
updates that row in place to the new checksum and timestamp. -/
lemma sign_update_filter (rows : List SignatureRow) (name c : String) (t : Nat)
    (hn : name ≠ "") (hc : c ≠ "") (r0 : SignatureRow)
    (hone : rows.filter (fun r => r.nationName == name) = [r0]) :
    ((signHandler rows name c t true).1).filter (fun r => r.nationName == name) =
      [⟨name, c, t⟩] := by
  have hr0 : r0 ∈ rows.filter (fun r => r.nationName == name) := by rw [hone]; simp
  have hr0p : r0.nationName = name := by
    have := (List.mem_filter.mp hr0).2
    simpa using this
  cases hf : rows.find? (fun r => r.nationName == name) with
  | none =>
    exfalso
    have : rows.filter (fun r => r.nationName == name) = [] :=
      List.filter_eq_nil_iff.mpr (List.find?_eq_none.mp hf)
    rw [hone] at this
    simp at this
  | some r1 =>
    have hmap : (rows.map (fun r =>
        if r.nationName == name then { r with checksum := c, signedAt := t } else r)).filter
          (fun r => r.nationName == name) =
        (rows.filter (fun r => r.nationName == name)).map (fun r =>
          if r.nationName == name then { r with checksum := c, signedAt := t } else r) := by
      rw [List.filter_map]
      have hcomp : ((fun r : SignatureRow => r.nationName == name) ∘ (fun r =>
          if r.nationName == name then { r with checksum := c, signedAt := t } else r)) =
          fun r : SignatureRow => r.nationName == name := by
        funext r
        by_cases hr : r.nationName == name <;> simp [Function.comp, hr]
      rw [hcomp]
    have hstep : (signHandler rows name c t true).1 =
        rows.map (fun r =>
          if r.nationName == name then { r with checksum := c, signedAt := t } else r) := by
      simp [signHandler, hn, hc, hf]
    rw [hstep, hmap, hone]
    obtain ⟨n0, c0, t0⟩ := r0
    simp only at hr0p
    simp [hr0p]

/-! ## Claim theorems -/

/-- C1: the ingestion pipeline does not keep memory bounded and does
materialize the whole document.  The decompression stage concatenates every
decompressed chunk into the single accumulator string xmlData, whose length
is the sum of all chunk lengths — it grows with the dump size — and at a
concrete chunked dump the string handed to the DOM parser parseStringPromise
is the entire document. -/
theorem processDailyNationDump_materializes_whole_document :
    (∀ chunks : List String,
      (accumulateXml chunks).length = (chunks.map String.length).sum) ∧
    (processDailyNationDump
      { now := 0, downloadOk := true,
        decompressResult := Except.ok ["<NATIONS>", "<NATION><NAME>Testlandia</NAME>"],
        parseResult := Except.error "Unexpected end of input",
        dbResult := Except.ok () }).parserInput =
      some "<NATIONS><NATION><NAME>Testlandia</NAME>" := by
  constructor
  · intro chunks
    have := foldl_append_length chunks ""
    simpa [accumulateXml] using this
  · rfl

/-- C2: a dump holding one well-formed record and one record lacking a NAME
field does not skip the malformed record: the batch mapping evaluates
`nationName.replace` on undefined, the TypeError aborts the run, and the
whole run resolves as a failure with no processed count — not as a success
with count 1. -/
theorem processDailyNationDump_aborts_on_missing_name :
    (processDailyNationDump
      { now := 0, downloadOk := true,
        decompressResult := Except.ok
          ["<NATIONS><NATION><NAME>Testlandia</NAME></NATION><NATION><FLAG>t.png</FLAG></NATION></NATIONS>"],
        parseResult := Except.ok (ParsedNations.arrayOf
          [⟨some "Testlandia", none, none⟩, ⟨none, some "t.png", none⟩]),
        dbResult := Except.ok () }).result =
      { success := false,
        message :=
          "Failed to process daily dump: TypeError: Cannot read properties of undefined (reading \x27replace\x27)",
        nationsProcessed := none } := by
  have h : processBatches [⟨some "Testlandia", none, none⟩, ⟨none, some "t.png", none⟩] =
      Except.error "TypeError: Cannot read properties of undefined (reading \x27replace\x27)" := by
    rw [processBatches]; rfl
  simp [processDailyNationDump, h]

/-- C3 counterexample: the computed wait is not the maximum of the three
terms of the claim.  At a state with an outstanding override delay of 1000ms,
next-available instant 0 and last call at 0, evaluated at now = 900, the code
waits 100ms — strictly less than the outstanding override delay, so the wait
is not the claimed maximum (which would be at least 1000). -/
theorem timeToWait_ignores_override_term :
    timeToWait ⟨0, 0, 1000⟩ 900 = 100 ∧
    (⟨0, 0, 1000⟩ : ThrottleState).retryAfterMs = 1000 ∧
    timeToWait ⟨0, 0, 1000⟩ 900 < (⟨0, 0, 1000⟩ : ThrottleState).retryAfterMs := by
  refine ⟨?_, rfl, ?_⟩ <;> decide

/-- C3 amended: the wait before a queued call is the maximum of zero, the
time remaining until the recorded next-available instant, and D minus the
elapsed time since the last completed call — where D is the outstanding
override delay when positive and the configured minimum interval otherwise:
the override substitutes for the minimum interval inside the elapsed-time
term instead of contributing as an independent term of the maximum. -/
theorem timeToWait_is_max_with_override_substituted (s : ThrottleState) (now : Int) :
    0 ≤ timeToWait s now ∧
    s.nextAvailableTime - now ≤ timeToWait s now ∧
    requiredDelay s - (now - s.lastRequestTime) ≤ timeToWait s now ∧
    (timeToWait s now = 0 ∨ timeToWait s now = s.nextAvailableTime - now ∨
      timeToWait s now = requiredDelay s - (now - s.lastRequestTime)) ∧
    requiredDelay s = if s.retryAfterMs > 0 then s.retryAfterMs else DEFAULT_MIN_DELAY_MS := by
  refine ⟨?_, ?_, ?_, ?_, rfl⟩ <;> simp only [timeToWait] <;> omega

/-- C4 counterexample: a 429 failure whose Retry-After header is missing is
not requeued with the 5x fallback delay; the limiter state is left unchanged
and the call is rejected like any other error. -/
theorem handle429_missing_retry_after_rejects :
    handle429 ⟨0, 0, 0⟩ ⟨some 429, none⟩ = (⟨0, 0, 0⟩, FailAction.rejectErr) := rfl

/-- C4 amended: when a throttled call fails with status 429 and a present,
non-empty Retry-After header, the limiter requeues the same call and records
the parsed header (seconds times 1000) as the new override delay, falling
back to 5 times the default minimum interval when the parsed value is
non-positive or not a number; the other state fields are unchanged.  A 429
without the header is rejected (see the counterexample). -/
theorem handle429_with_retry_after_requeues (s : ThrottleState) (hdr : String)
    (hh : hdr ≠ "") :
    (handle429 s ⟨some 429, some hdr⟩).2 = FailAction.requeue ∧
    (handle429 s ⟨some 429, some hdr⟩).1.retryAfterMs =
      (match jsParseInt hdr with
       | some v => if v * 1000 > 0 then v * 1000 else DEFAULT_MIN_DELAY_MS * 5
       | none => DEFAULT_MIN_DELAY_MS * 5) ∧
    (handle429 s ⟨some 429, some hdr⟩).1.lastRequestTime = s.lastRequestTime ∧
    (handle429 s ⟨some 429, some hdr⟩).1.nextAvailableTime = s.nextAvailableTime := by
  simp [handle429, hh]

/-- C4 witness: a 429 with Retry-After 0 (non-positive) is requeued and the
override falls back to 5 x 700 = 3500ms. -/
theorem handle429_with_retry_after_requeues_witness :
    ("0" : String) ≠ "" ∧
    (handle429 ⟨0, 0, 0⟩ ⟨some 429, some "0"⟩).2 = FailAction.requeue ∧
    (handle429 ⟨0, 0, 0⟩ ⟨some 429, some "0"⟩).1.retryAfterMs = 3500 :=
  ⟨by decide, (handle429_with_retry_after_requeues ⟨0, 0, 0⟩ "0" (by decide)).1, rfl⟩

/-- C5: on a stream of well-formed records, the batching loop slices the
stream in order into batches of at most 500 (their concatenation is the
original stream), issues exactly one multi-row upsert statement per batch —
in that same stream order — and counts every record. -/
theorem dump_batches_ordered_bounded_single_statement (recs : List NationRec)
    (h : ∀ r ∈ recs, r.NAME.isSome) :
    (batchesOf recs).flatten = recs ∧
    (∀ b ∈ batchesOf recs, b.length ≤ 500) ∧
    processBatches recs =
      Except.ok ((batchesOf recs).map (fun b => mkSql (joinComma (b.map mkValueStr))),
        recs.length) :=
  ⟨batchesOf_flatten recs, batchesOf_le recs, processBatches_spec recs h⟩

/-- C5 witness: a concrete two-record stream forms one batch, one statement,
count 2. -/
theorem dump_batches_ordered_bounded_single_statement_witness :
    (∀ r ∈ ([⟨some "Aridaia", some "ar.png", some "Lazarus"⟩, ⟨some "Borovan", none, none⟩] :
      List NationRec), r.NAME.isSome) ∧
    ((batchesOf [⟨some "Aridaia", some "ar.png", some "Lazarus"⟩,
        ⟨some "Borovan", none, none⟩]).flatten =
      [⟨some "Aridaia", some "ar.png", some "Lazarus"⟩, ⟨some "Borovan", none, none⟩] ∧
      (∀ b ∈ batchesOf [⟨some "Aridaia", some "ar.png", some "Lazarus"⟩,
        ⟨some "Borovan", none, none⟩], b.length ≤ 500) ∧
      processBatches [⟨some "Aridaia", some "ar.png", some "Lazarus"⟩,
          ⟨some "Borovan", none, none⟩] =
        Except.ok ((batchesOf [⟨some "Aridaia", some "ar.png", some "Lazarus"⟩,
            ⟨some "Borovan", none, none⟩]).map
            (fun b => mkSql (joinComma (b.map mkValueStr))),
          ([⟨some "Aridaia", some "ar.png", some "Lazarus"⟩,
            ⟨some "Borovan", none, none⟩] : List NationRec).length)) :=
  ⟨by decide, dump_batches_ordered_bounded_single_statement _ (by decide)⟩

/-- C6: every run of processDailyNationDump — ending in success or in any of
the download, decompression, parse, batch-mapping or database failures —
performs exactly one unlink of the transient downloaded file; the run always
resolves with a structured result (the embedding is a total function into
DumpRun, modelling that no path throws). -/
theorem processDailyNationDump_always_cleans_up (env : DumpEnv) :
    (processDailyNationDump env).fsActions = [FsAction.unlink (tempFilePathOf env.now)] := by
  unfold processDailyNationDump
  repeat' split <;> try rfl

/-- C7: with the shared secret configured, verifyNation resolves to true
exactly when the settled fetch outcome is a response body that trims to "1";
on any other body, any non-2xx HTTP status (FetchError) and any network
failure it resolves to false — it always resolves to a boolean, never
throws. -/
theorem verifyNation_true_iff_trimmed_body_one (h : String → String → String)
    (key nationName checksum : String) (outcome : FetchOutcome) (hk : key ≠ "") :
    (verifyNation h (some key) nationName checksum outcome = Except.ok true ↔
      ∃ body, outcome = FetchOutcome.ok body ∧ body.trim = "1") ∧
    ∃ b : Bool, verifyNation h (some key) nationName checksum outcome = Except.ok b := by
  cases outcome <;> simp [verifyNation, generateNSTokenServer, hk]

/-- C7 witness: at a concrete hash function, secret and a body of " 1 ", the
call resolves true, matching the characterization. -/
theorem verifyNation_true_iff_trimmed_body_one_witness :
    ("sekrit" : String) ≠ "" ∧
    ((verifyNation (fun k m => k ++ "|" ++ m) (some "sekrit") "Testlandia" "c123"
        (FetchOutcome.ok " 1 ") = Except.ok true ↔
      ∃ body, FetchOutcome.ok " 1 " = FetchOutcome.ok body ∧ body.trim = "1") ∧
      ∃ b : Bool, verifyNation (fun k m => k ++ "|" ++ m) (some "sekrit") "Testlandia" "c123"
        (FetchOutcome.ok " 1 ") = Except.ok b) :=
  ⟨by decide,
    verifyNation_true_iff_trimmed_body_one (fun k m => k ++ "|" ++ m) "sekrit" "Testlandia"
      "c123" (FetchOutcome.ok " 1 ") (by decide)⟩

/-- C8: with the shared secret configured, the client-side token generator of
the signing UI and the server-side token generator used by verifyNation
produce the same token: the HMAC-SHA-256 (abstracted as the shared hash
argument) of the lower-cased nation name under the shared secret. -/
theorem generateNSToken_client_server_agree (h : String → String → String)
    (key nationName : String) (hk : key ≠ "") :
    generateNSToken h (some key) nationName = generateNSTokenServer h (some key) nationName ∧
    generateNSToken h (some key) nationName = Except.ok (h key nationName.toLower) := by
  simp [generateNSToken, generateNSTokenServer, hk]

/-- C8 witness: at a concrete hash function and secret, both generators
produce the hash of the lower-cased name. -/
theorem generateNSToken_client_server_agree_witness :
    ("sekrit" : String) ≠ "" ∧
    (generateNSToken (fun k m => k ++ "|" ++ m) (some "sekrit") "Testlandia" =
      generateNSTokenServer (fun k m => k ++ "|" ++ m) (some "sekrit") "Testlandia" ∧
    generateNSToken (fun k m => k ++ "|" ++ m) (some "sekrit") "Testlandia" =
      Except.ok ((fun k m => k ++ "|" ++ m) "sekrit" ("Testlandia" : String).toLower)) :=
  ⟨by decide, generateNSToken_client_server_agree (fun k m => k ++ "|" ++ m) "sekrit"
    "Testlandia" (by decide)⟩

/-- C9: from any signatures table satisfying the at-most-one-row-per-name
invariant, two successful (verified) sign operations for the same nation
leave exactly one row for that name, carrying the second sign checksum and
timestamp: the re-sign updates in place instead of inserting a duplicate. -/
theorem sign_twice_yields_single_updated_row (rows : List SignatureRow)
    (name c1 c2 : String) (t1 t2 : Nat)
    (hn : name ≠ "") (h1 : c1 ≠ "") (h2 : c2 ≠ "")
    (hinv : (rows.filter (fun r => r.nationName == name)).length ≤ 1) :
    ((signHandler (signHandler rows name c1 t1 true).1 name c2 t2 true).1).filter
      (fun r => r.nationName == name) = [⟨name, c2, t2⟩] := by
  cases hf : rows.filter (fun r => r.nationName == name) with
  | nil =>
    have h1f := sign_insert_filter rows name c1 t1 hn h1 hf
    exact sign_update_filter _ name c2 t2 hn h2 _ h1f
  | cons r0 tail =>
    have htail : tail = [] := by
      rw [hf] at hinv
      simp only [List.length_cons] at hinv
      exact List.eq_nil_of_length_eq_zero (by omega)
    subst htail
    have h1f := sign_update_filter rows name c1 t1 hn h1 r0 hf
    exact sign_update_filter _ name c2 t2 hn h2 _ h1f

/-- C9 witness: the spec test — signing "Testlandia" with checksum "abc" and
then "xyz" from an empty table leaves exactly one Testlandia row holding
"xyz" and the second timestamp. -/
theorem sign_twice_yields_single_updated_row_witness :
    ("Testlandia" : String) ≠ "" ∧ ("abc" : String) ≠ "" ∧ ("xyz" : String) ≠ "" ∧
    (([] : List SignatureRow).filter (fun r => r.nationName == "Testlandia")).length ≤ 1 ∧
    ((signHandler (signHandler [] "Testlandia" "abc" 1 true).1 "Testlandia" "xyz" 2 true).1).filter
      (fun r => r.nationName == "Testlandia") = [⟨"Testlandia", "xyz", 2⟩] :=
  ⟨by decide, by decide, by decide, by decide,
    sign_twice_yields_single_updated_row [] "Testlandia" "abc" "xyz" 1 2
      (by decide) (by decide) (by decide) (by decide)⟩

/-- C10: when an upstream record carries no flag code, the dump pipeline and
the live-lookup path both derive the empty string as the flag URL — not a
URL built from the fixed template — and the dump stores that empty string in
the upserted row tuple. -/
theorem missing_flag_code_yields_empty_flagUrl (name : String) (region : Option String) :
    flagUrlOfDump none = "" ∧ fetchedFlagUrlOfLive none = "" ∧
    mkValue ⟨some name, none, region⟩ =
      Except.ok ("(" ++ sqlQuote name ++ ", " ++ sqlQuote "" ++ ", " ++
        sqlQuote (regionOf region) ++ ")") :=
  ⟨rfl, rfl, rfl⟩
